import Mathlib

/-!
Verification development for the kubi token service
(`services` package: token issuance/verification handlers, and
`utils.MakeConfig`).

Go strings are byte sequences; we model them as `List Nat` with each
element a byte value (< 256).  External collaborators of the core --
the JSON codec for claims, HMAC-SHA512, the LDAP directory, the YAML
marshaller, and URL/base64 validators from ozzo-validation -- are
parameters of the model (fields of `Env`, or explicit function
arguments), exactly as the spec treats them as external contracts.
Everything else (base64 encoding/decoding, splitting, duration
parsing, the jwt-go parse/sign pipeline, the handlers) is translated
from the source.
-/

namespace Kubi

/-- Byte list of an ASCII string (Go strings are byte sequences). -/
def sb (s : String) : List Nat :=
  s.data.map (fun c => c.toNat)

/-! ## base64url (jwt-go segments) and standard base64 (Basic auth) -/

/-- base64url alphabet: 6-bit value (0..63) to ASCII code. -/
def tbl (v : Nat) : Nat :=
  if v < 26 then 65 + v
  else if v < 52 then 97 + (v - 26)
  else if v < 62 then 48 + (v - 52)
  else if v = 62 then 45
  else 95

/-- ASCII code to base64url 6-bit value; `none` outside the alphabet. -/
def b64val (c : Nat) : Option Nat :=
  if 65 ≤ c ∧ c ≤ 90 then some (c - 65)
  else if 97 ≤ c ∧ c ≤ 122 then some (26 + (c - 97))
  else if 48 ≤ c ∧ c ≤ 57 then some (52 + (c - 48))
  else if c = 45 then some 62
  else if c = 95 then some 63
  else none

/-- base64url encoding without padding, as produced by jwt-go
`EncodeSegment` (`base64.URLEncoding` with `=` trimmed). -/
def encB64 : List Nat → List Nat
  | [] => []
  | [b1] => [tbl (b1 / 4), tbl (b1 % 4 * 16)]
  | [b1, b2] => [tbl (b1 / 4), tbl (b1 % 4 * 16 + b2 / 16), tbl (b2 % 16 * 4)]
  | b1 :: b2 :: b3 :: rest =>
      tbl (b1 / 4) :: tbl (b1 % 4 * 16 + b2 / 16) :: tbl (b2 % 16 * 4 + b3 / 64) ::
        tbl (b3 % 64) :: encB64 rest

/-- Decode a padded base64url text quantum by quantum, as Go's
`base64.URLEncoding.DecodeString` does: `=` only terminates the input,
and unused trailing bits are ignored (Go's default non-strict mode).
`none` models a decode error. -/
def decQuanta : List Nat → Option (List Nat)
  | [] => some []
  | c1 :: c2 :: c3 :: c4 :: rest =>
    match b64val c1, b64val c2 with
    | some v1, some v2 =>
      if c3 = 61 ∧ c4 = 61 ∧ rest = [] then
        some [v1 * 4 + v2 / 16]
      else
        match b64val c3 with
        | some v3 =>
          if c4 = 61 ∧ rest = [] then
            some [v1 * 4 + v2 / 16, v2 % 16 * 16 + v3 / 4]
          else
            match b64val c4 with
            | some v4 =>
              (decQuanta rest).map
                (fun bs => (v1 * 4 + v2 / 16) :: (v2 % 16 * 16 + v3 / 4) ::
                  (v3 % 4 * 64 + v4) :: bs)
            | none => none
        | none => none
    | _, _ => none
  | _ => none

/-- jwt-go `DecodeSegment`: pad with `=` to a multiple of four, then
base64url-decode. -/
def decB64 (seg : List Nat) : Option (List Nat) :=
  decQuanta (seg ++ List.replicate ((4 - seg.length % 4) % 4) 61)

/-- Standard base64 alphabet (`+`, `/`) to 6-bit value. -/
def stdVal (c : Nat) : Option Nat :=
  if 65 ≤ c ∧ c ≤ 90 then some (c - 65)
  else if 97 ≤ c ∧ c ≤ 122 then some (26 + (c - 97))
  else if 48 ≤ c ∧ c ≤ 57 then some (52 + (c - 48))
  else if c = 43 then some 62
  else if c = 47 then some 63
  else none

/-- Go `base64.StdEncoding.DecodeString` behaviour: returns the bytes
decoded before the first error together with a success flag.  A quantum
containing an invalid character (or a trailing group shorter than four
characters) contributes nothing and marks the result as failed, while
earlier quanta remain decoded -- this is exactly what the Go decoder
returns alongside a `CorruptInputError`. -/
def decStdGo : List Nat → List Nat × Bool
  | [] => ([], true)
  | c1 :: c2 :: c3 :: c4 :: rest =>
    match stdVal c1, stdVal c2 with
    | some v1, some v2 =>
      if c3 = 61 ∧ c4 = 61 ∧ rest = [] then
        ([v1 * 4 + v2 / 16], true)
      else
        match stdVal c3 with
        | some v3 =>
          if c4 = 61 ∧ rest = [] then
            ([v1 * 4 + v2 / 16, v2 % 16 * 16 + v3 / 4], true)
          else
            match stdVal c4 with
            | some v4 =>
              match decStdGo rest with
              | (bs, ok) =>
                ((v1 * 4 + v2 / 16) :: (v2 % 16 * 16 + v3 / 4) ::
                  (v3 % 4 * 64 + v4) :: bs, ok)
            | none => ([], false)
        | none => ([], false)
    | _, _ => ([], false)
  | _ => ([], false)

/-! ## Go `strings` helpers used by the source -/

/-- Go `strings.SplitN(s, sep, 2)` for a one-byte separator: split at
the first occurrence only. -/
def splitN2Byte (sep : Nat) : List Nat → List (List Nat)
  | [] => [[]]
  | c :: cs =>
    if c = sep then [[], cs]
    else
      match splitN2Byte sep cs with
      | [] => [[c]]
      | x :: rest => (c :: x) :: rest

/-- Go `strings.Split(s, sep)` for a one-byte separator. -/
def splitByte (sep : Nat) : List Nat → List (List Nat)
  | [] => [[]]
  | c :: cs =>
    match splitByte sep cs with
    | [] => [[]]
    | p :: ps => if c = sep then [] :: p :: ps else (c :: p) :: ps

/-- Go `strings.HasPrefix pat s` (first argument is the pattern). -/
def startsWith : List Nat → List Nat → Bool
  | [], _ => true
  | _ :: _, [] => false
  | p :: ps, c :: cs => p = c && startsWith ps cs

/-- Index of the first occurrence of `pat` in `s`, if any. -/
def findSub (pat : List Nat) : List Nat → Option Nat
  | [] => if pat = [] then some 0 else none
  | c :: cs =>
    if startsWith pat (c :: cs) then some 0
    else (findSub pat cs).map (fun i => i + 1)

/-- Worker for `splitSeq`, with fuel (the separator is non-empty in
every use, so `length + 1` fuel always suffices). -/
def splitSeqGo (pat : List Nat) : Nat → List Nat → List (List Nat)
  | 0, s => [s]
  | fuel + 1, s =>
    match findSub pat s with
    | none => [s]
    | some i => s.take i :: splitSeqGo pat fuel (s.drop (i + pat.length))

/-- Go `strings.Split(s, sep)` for a multi-byte separator. -/
def splitSeq (pat s : List Nat) : List (List Nat) :=
  splitSeqGo pat (s.length + 1) s

/-! ## Go `time.ParseDuration` -/

/-- Longest digit prefix and the rest. -/
def spanDigits : List Nat → List Nat × List Nat
  | [] => ([], [])
  | c :: cs =>
    if 48 ≤ c ∧ c ≤ 57 then
      match spanDigits cs with
      | (ds, r) => (c :: ds, r)
    else ([], c :: cs)

/-- Decimal value of a digit list. -/
def digitsVal (ds : List Nat) : Nat :=
  ds.foldl (fun a c => a * 10 + (c - 48)) 0

/-- Longest prefix of unit characters (neither digit nor dot) and the
rest, as Go's duration parser scans a unit name. -/
def spanUnit : List Nat → List Nat × List Nat
  | [] => ([], [])
  | c :: cs =>
    if (48 ≤ c ∧ c ≤ 57) ∨ c = 46 then ([], c :: cs)
    else
      match spanUnit cs with
      | (us, r) => (c :: us, r)

/-- Go duration unit table, in nanoseconds (ASCII units; the `µs`
spelling is not exercised by this repository's configuration). -/
def durUnitNs (u : List Nat) : Option Int :=
  if u = sb ("ns") then some 1
  else if u = sb ("us") then some 1000
  else if u = sb ("ms") then some 1000000
  else if u = sb ("s") then some 1000000000
  else if u = sb ("m") then some 60000000000
  else if u = sb ("h") then some 3600000000000
  else none

/-- Main loop of Go `time.ParseDuration` after the sign: repeatedly
read digits, an optional fraction, and a unit.  Fractional
contributions are floored (Go computes them in float64; both agree on
the durations this repository can be configured with).  Overflow
checks are omitted. -/
def parseDurGo (fuel : Nat) (s : List Nat) : Option Int :=
  match fuel with
  | 0 => none
  | fuel + 1 =>
    match s with
    | [] => some 0
    | _ :: _ =>
      match spanDigits s with
      | (ds, s1) =>
        let hasDot : Bool := s1.head? = some 46
        match (if hasDot then spanDigits s1.tail else ([], s1)) with
        | (fs, s2) =>
          if ds = [] ∧ (hasDot = false ∨ fs = []) then none
          else
            match spanUnit s2 with
            | (us, s3) =>
              match durUnitNs us with
              | none => none
              | some unit =>
                let scale : Int := Int.ofNat (10 ^ fs.length)
                let v : Int := Int.ofNat (digitsVal ds) * unit +
                  Int.ofNat (digitsVal fs) * unit / scale
                match parseDurGo fuel s3 with
                | none => none
                | some rest => some (v + rest)

/-- Go `time.ParseDuration` on a byte string: `none` models the error
return (in which case Go also returns a zero duration). -/
def parseDurationNs (s : List Nat) : Option Int :=
  match s with
  | 45 :: r =>
    if r = [48] then some 0
    else if r = [] then none
    else (parseDurGo (r.length + 1) r).map (fun d => -d)
  | 43 :: r =>
    if r = [48] then some 0
    else if r = [] then none
    else parseDurGo (r.length + 1) r
  | _ =>
    if s = [48] then some 0
    else if s = [] then none
    else parseDurGo (s.length + 1) s

/-! ## Data model

The `types` package of the repository is not among the given source
files; the claim/config record shapes below are modelled from the
spec (section 3 and the field accesses in the source: `claims.Auths`,
`claims.StandardClaims.ExpiresAt`, `auth.Username`, `auth.Password`,
and the `types.KubeConfig*` literals of `GenerateConfig`). -/

/-- Modelled from the spec: one namespace-scoped authorization grant
(`AuthorizationGrant`: namespace plus role). -/
structure AuthorizationGrant where
  nspace : List Nat
  role : List Nat
deriving DecidableEq

/-- jwt-go `StandardClaims`, restricted to the fields this repository
sets (`ExpiresAt` in Unix seconds, `Issuer`).  The remaining standard
fields stay at their zero values and never influence validation. -/
structure StandardClaims where
  expiresAt : Int
  issuer : List Nat
deriving DecidableEq

/-- Modelled from the spec: `types.AuthJWTClaims` -- grants, subject,
admin flag, and the embedded standard claims. -/
structure AuthJWTClaims where
  auths : List AuthorizationGrant
  user : List Nat
  hasAdminAccess : Bool
  standardClaims : StandardClaims
deriving DecidableEq

/-- Modelled from the spec: `types.Auth`, the extracted Basic
credential pair. -/
structure Auth where
  username : List Nat
  password : List Nat
deriving DecidableEq

/-- Outcome of a Go function that can also crash: a value, an `error`
(message bytes, as built by `errors.New`/`fmt.Sprintf`), or a runtime
panic. -/
inductive GoResult (α : Type) where
  | ok : α → GoResult α
  | err : List Nat → GoResult α
  | panics : List Nat → GoResult α
deriving DecidableEq

/-- jwt-go `ValidationError` bitmask, restricted to the flags this
pipeline can set: `ValidationErrorMalformed`, `ValidationErrorExpired`
and `ValidationErrorSignatureInvalid`. -/
structure ValidationError where
  malformed : Bool
  expired : Bool
  signatureInvalid : Bool
deriving DecidableEq

/-- `types.KubeConfigClusterData`. -/
structure KubeConfigClusterData where
  server : List Nat
  certificateData : List Nat
deriving DecidableEq

/-- `types.KubeConfigCluster`. -/
structure KubeConfigCluster where
  name : List Nat
  cluster : KubeConfigClusterData
deriving DecidableEq

/-- `types.KubeConfigContextData`. -/
structure KubeConfigContextData where
  cluster : List Nat
  user : List Nat
deriving DecidableEq

/-- `types.KubeConfigContext`. -/
structure KubeConfigContext where
  name : List Nat
  context : KubeConfigContextData
deriving DecidableEq

/-- `types.KubeConfigUserToken`. -/
structure KubeConfigUserToken where
  token : List Nat
deriving DecidableEq

/-- `types.KubeConfigUser`. -/
structure KubeConfigUser where
  user : KubeConfigUserToken
  name : List Nat
deriving DecidableEq

/-- `types.KubeConfig` as constructed by `GenerateConfig`. -/
structure KubeConfig where
  apiVersion : List Nat
  kind : List Nat
  clusters : List KubeConfigCluster
  currentContext : List Nat
  contexts : List KubeConfigContext
  users : List KubeConfigUser
deriving DecidableEq

/-- Modelled from the spec: `types.LdapConfig`, restricted to the
fields `MakeConfig` validates. -/
structure LdapConfig where
  userBase : List Nat
  groupBase : List Nat
  host : List Nat
  bindDN : List Nat
  bindPassword : List Nat
deriving DecidableEq

/-- Modelled from the spec: `types.Config`, restricted to the fields
`MakeConfig` validates plus the token lifetime consumed by issuance. -/
structure Config where
  ldap : LdapConfig
  kubeCa : List Nat
  kubeToken : List Nat
  apiServerURL : List Nat
  tokenLifeTime : List Nat
deriving DecidableEq

/-- External collaborators of the handlers, passed as one bundle:
the JSON codec for `AuthJWTClaims` (`ser`/`deser`), HMAC-SHA512
(`mac key message`), the signing key bytes, the authorization mapper
`GetUserNamespaces`, the configured lifetime string, the LDAP
directory calls, the YAML marshaller, and the configured CA data. -/
structure Env where
  ser : AuthJWTClaims → List Nat
  deser : List Nat → Option AuthJWTClaims
  mac : List Nat → List Nat → List Nat
  signingKey : List Nat
  getUserNamespaces : List (List Nat) → List AuthorizationGrant
  tokenLifeTime : List Nat
  authenticateUser : List Nat → List Nat → Except (List Nat) (List Nat)
  getUserGroups : List Nat → Except (List Nat) (List (List Nat))
  adminAccess : List Nat → Bool
  yamlMarshal : KubeConfig → List Nat
  kubeCa : List Nat

/-! ## jwt-go signing and parsing -/

/-- ASCII `.`, the jwt segment separator. -/
def dot : Nat := 46

/-- The JSON header jwt-go produces for `SigningMethodHS512`
(`json.Marshal` sorts the map keys). -/
def headerHS512 : List Nat :=
  sb ("\x7b\"alg\":\"HS512\",\"typ\":\"JWT\"\x7d")

/-- jwt-go `EncodeSegment`. -/
def encodeSegment (bs : List Nat) : List Nat := encB64 bs

/-- jwt-go `Token.SigningString()`: base64url header, a dot, base64url
serialized claims.  This text (not the raw bytes) is what HMAC signs. -/
def signingString (serClaims : List Nat) : List Nat :=
  encodeSegment headerHS512 ++ dot :: encodeSegment serClaims

/-- jwt-go `Token.SignedString`: signing string, a dot, base64url of
the HMAC over the signing string.  HMAC never fails on a byte-slice
key, so signing is total (the `err` returned by the source is always
nil on this path). -/
def signedString (ser : AuthJWTClaims → List Nat) (mac : List Nat → List Nat → List Nat)
    (key : List Nat) (claims : AuthJWTClaims) : List Nat :=
  signingString (ser claims) ++ dot :: encodeSegment (mac key (signingString (ser claims)))

/-- Expiry test of jwt-go `StandardClaims.Valid` at time `now` (Unix
seconds): expired exactly when `ExpiresAt` is set and `now` is past
it.  `IssuedAt`/`NotBefore` are zero in this repository and thus never
fire. -/
def claimsExpired (c : AuthJWTClaims) (now : Int) : Bool :=
  if c.standardClaims.expiresAt = 0 then false
  else decide (c.standardClaims.expiresAt < now)

/-- jwt-go `ParseWithClaims` with a key function returning
`signingKey`: split on dots into exactly three segments, decode the
header (this repository only ever meets the canonical HS512 header;
any other header byte string is rejected as malformed, which agrees
with jwt-go on every input considered here), decode and deserialize
the claims, then combine the claims-validation flag with the signature
check, exactly in jwt-go's order (claims validity and signature are
both evaluated; their error flags are OR-ed). -/
def parseWithClaims (deser : List Nat → Option AuthJWTClaims)
    (mac : List Nat → List Nat → List Nat) (key : List Nat) (now : Int)
    (tok : List Nat) : Except ValidationError AuthJWTClaims :=
  match splitByte dot tok with
  | [p0, p1, p2] =>
    match decB64 p0 with
    | none => Except.error ⟨true, false, false⟩
    | some hdr =>
      if hdr = headerHS512 then
        match decB64 p1 with
        | none => Except.error ⟨true, false, false⟩
        | some pl =>
          match deser pl with
          | none => Except.error ⟨true, false, false⟩
          | some claims =>
            let expd := claimsExpired claims now
            let sigOk : Bool :=
              match decB64 p2 with
              | none => false
              | some sig => decide (sig = mac key (p0 ++ dot :: p1))
            if expd = false ∧ sigOk = true then Except.ok claims
            else Except.error ⟨false, expd, !sigOk⟩
      else Except.error ⟨true, false, false⟩
  | _ => Except.error ⟨true, false, false⟩

/-! ## Token issuance (`generateUserToken`, `baseGenerateToken`) -/

/-- Seconds added to `issuedAt`: `time.ParseDuration` of the
configured lifetime with the error silently discarded (a failed parse
leaves the Go zero duration), floored to Unix seconds. -/
def lifetimeSeconds (lt : List Nat) : Int :=
  ((parseDurationNs lt).getD 0).ediv 1000000000

/-- The `types.AuthJWTClaims` literal built by `generateUserToken`:
grants from `GetUserNamespaces`, the username, the admin flag, and
standard claims with `ExpiresAt = now + duration` and the fixed
issuer. -/
def issuedClaims (E : Env) (now : Int) (groups : List (List Nat))
    (username : List Nat) (hasAdminAccess : Bool) : AuthJWTClaims :=
  ⟨E.getUserNamespaces groups, username, hasAdminAccess,
    ⟨now + lifetimeSeconds E.tokenLifeTime, sb ("Kubi Server")⟩⟩

/-- `generateUserToken`: build the claims and sign them with HS512
under the process signing key.  `now` is the issuance instant in Unix
seconds. -/
def generateUserToken (E : Env) (now : Int) (groups : List (List Nat))
    (username : List Nat) (hasAdminAccess : Bool) : List Nat :=
  signedString E.ser E.mac E.signingKey (issuedClaims E now groups username hasAdminAccess)

/-- `baseGenerateToken`: authenticate against the directory, resolve
groups, and issue; each directory error is returned unchanged. -/
def baseGenerateToken (E : Env) (now : Int) (auth : Auth) :
    Except (List Nat) (List Nat) :=
  match E.authenticateUser auth.username auth.password with
  | Except.error e => Except.error e
  | Except.ok userDN =>
    match E.getUserGroups userDN with
    | Except.error e => Except.error e
    | Except.ok groups =>
      Except.ok (generateUserToken E now groups auth.username (E.adminAccess userDN))

/-! ## Credential and bearer extraction -/

/-- `basicAuth`: split the Authorization header at the first space,
require the `Basic` scheme word, base64-decode the remainder with the
error discarded (`payload, _ :=`), split the decoded payload at the
first colon, and index both halves.  When the payload holds no colon,
`pair` has a single element and `pair[1]` is an out-of-range index: a
runtime panic, modelled explicitly. -/
def basicAuth (authHeader : List Nat) : GoResult Auth :=
  match splitN2Byte 32 authHeader with
  | [scheme, rest] =>
    if scheme = sb ("Basic") then
      match splitN2Byte 58 (decStdGo rest).fst with
      | p0 :: p1 :: _ => GoResult.ok ⟨p0, p1⟩
      | _ => GoResult.panics (sb ("index out of range"))
    else GoResult.err (sb ("Invalid Auth"))
  | _ => GoResult.err (sb ("Invalid Auth"))

/-- The `Bearer ` prefix constant of `CurrentJWT`. -/
def bearerPfx : List Nat := sb ("Bearer ")

/-- The extraction part of `CurrentJWT` (lines 158-165): require the
`Bearer ` prefix and total length at least 8, then take element 1 of
`strings.Split(header, "Bearer ")`.  The error message is the constant
part of the `fmt.Sprintf` text (the source appends the offending
header value). -/
def extractBearer (h : List Nat) : GoResult (List Nat) :=
  if startsWith bearerPfx h = false ∨ h.length < 8 then
    GoResult.err (sb ("Invalid Authorization Header"))
  else
    match splitSeq bearerPfx h with
    | _ :: t :: _ => GoResult.ok t
    | _ => GoResult.panics (sb ("index out of range"))

/-- `CurrentJWT`: extract the bearer token, then parse and validate it;
parse errors are returned to the caller. -/
def currentJWT (E : Env) (now : Int) (authHeader : List Nat) :
    GoResult AuthJWTClaims :=
  match extractBearer authHeader with
  | GoResult.err e => GoResult.err e
  | GoResult.panics m => GoResult.panics m
  | GoResult.ok bearer =>
    match parseWithClaims E.deser E.mac E.signingKey now bearer with
    | Except.error _ => GoResult.err (sb ("Bad token"))
    | Except.ok claims => GoResult.ok claims

/-! ## HTTP handlers -/

/-- State of a `net/http` response writer: the status actually sent
(at most one `WriteHeader` takes effect), the header map snapshot at
the moment the status was written (later `Header().Set` calls mutate
only the pending map and are never transmitted), and the body bytes. -/
structure HttpResponse where
  status : Option Nat
  sentHeaders : List (List Nat × List Nat)
  pendingHeaders : List (List Nat × List Nat)
  body : List Nat
deriving DecidableEq

/-- A fresh response writer. -/
def emptyResponse : HttpResponse := ⟨none, [], [], []⟩

/-- `w.WriteHeader(code)`: only the first call takes effect, and it
snapshots the current header map. -/
def writeHeader (code : Nat) (w : HttpResponse) : HttpResponse :=
  if w.status = none then ⟨some code, w.pendingHeaders, w.pendingHeaders, w.body⟩ else w

/-- `w.Header().Set(k, v)`: mutates the header map; has no effect on
what was already sent. -/
def headerSet (k v : List Nat) (w : HttpResponse) : HttpResponse :=
  ⟨w.status, w.sentHeaders, (k, v) :: w.pendingHeaders.filter (fun p => p.fst ≠ k), w.body⟩

/-- `io.WriteString` / `w.Write`: an implicit 200 status if none was
written yet, then append to the body. -/
def bodyWrite (bs : List Nat) (w : HttpResponse) : HttpResponse :=
  let w1 := writeHeader 200 w
  ⟨w1.status, w1.sentHeaders, w1.pendingHeaders, w1.body ++ bs⟩

/-- `GenerateJWT`: on a `basicAuth` error the handler writes 401 and
the fixed message but does not return, so `*auth` dereferences a nil
pointer -- a runtime panic, modelled as the second component.  On a
directory error nothing at all is written (`token` is nil).  On
success the token is written with status 200. -/
def generateJWT (E : Env) (now : Int) (authHeader : List Nat) :
    HttpResponse × Option (List Nat) :=
  match basicAuth authHeader with
  | GoResult.panics m => (emptyResponse, some m)
  | GoResult.err _ =>
    (bodyWrite (sb ("Basic Auth: Invalid credentials")) (writeHeader 401 emptyResponse),
      some (sb ("invalid memory address or nil pointer dereference")))
  | GoResult.ok auth =>
    match baseGenerateToken E now auth with
    | Except.error _ => (emptyResponse, none)
    | Except.ok token => (bodyWrite token (writeHeader 200 emptyResponse), none)

/-- The `types.KubeConfig` literal of `GenerateConfig` (lines
103-130). -/
def generateConfigDoc (E : Env) (host username token : List Nat) : KubeConfig :=
  ⟨sb ("v1"), sb ("Config"),
    [⟨sb ("kubernetes"), ⟨sb ("https://") ++ host, E.kubeCa⟩⟩],
    sb ("kubernetes") ++ sb ("-") ++ username,
    [⟨sb ("kubernetes") ++ sb ("-") ++ username, ⟨sb ("kubernetes"), username⟩⟩],
    [⟨⟨token⟩, username⟩]⟩

/-- `GenerateConfig`: same missing-return nil dereference as
`GenerateJWT` on a `basicAuth` error; 401-and-return on a directory
error; otherwise it marshals the document, writes status 201, sets
`Content-Type` only afterwards (so the header is never transmitted),
and writes the YAML bytes. -/
def generateConfig (E : Env) (now : Int) (host authHeader : List Nat) :
    HttpResponse × Option (List Nat) :=
  match basicAuth authHeader with
  | GoResult.panics m => (emptyResponse, some m)
  | GoResult.err _ =>
    (bodyWrite (sb ("Basic Auth: Invalid credentials")) (writeHeader 401 emptyResponse),
      some (sb ("invalid memory address or nil pointer dereference")))
  | GoResult.ok auth =>
    match baseGenerateToken E now auth with
    | Except.error _ => (writeHeader 401 emptyResponse, none)
    | Except.ok token =>
      let yml := E.yamlMarshal (generateConfigDoc E host auth.username token)
      (bodyWrite yml
        (headerSet (sb ("Content-Type")) (sb ("text/x-yaml; charset=utf-8"))
          (writeHeader 201 emptyResponse)), none)

/-! ## `utils.MakeConfig` validation tail (lines 110-132) -/

/-- The ozzo-validation rules on the core configuration
(`ApiServerURL` required and a URL, `KubeToken` required, `KubeCa`
required and base64).  `isURL`/`isB64` stand for the external
`is.URL`/`is.Base64` validators. -/
def validateCore (isURL isB64 : List Nat → Bool) (c : Config) : Option (List Nat) :=
  if c.apiServerURL = [] then some (sb ("ApiServerURL: cannot be blank"))
  else if isURL c.apiServerURL = false then some (sb ("ApiServerURL: must be a valid URL"))
  else if c.kubeToken = [] then some (sb ("KubeToken: cannot be blank"))
  else if c.kubeCa = [] then some (sb ("KubeCa: cannot be blank"))
  else if isB64 c.kubeCa = false then some (sb ("KubeCa: must be encoded in Base64"))
  else none

/-- The ozzo-validation rules on the LDAP configuration (each listed
field required, lengths between 2 and 200, `Host` a URL). -/
def validateLdap (isURL : List Nat → Bool) (l : LdapConfig) : Option (List Nat) :=
  if l.userBase = [] then some (sb ("UserBase: cannot be blank"))
  else if l.userBase.length < 2 ∨ 200 < l.userBase.length then
    some (sb ("UserBase: the length must be between 2 and 200"))
  else if l.groupBase = [] then some (sb ("GroupBase: cannot be blank"))
  else if l.groupBase.length < 2 ∨ 200 < l.groupBase.length then
    some (sb ("GroupBase: the length must be between 2 and 200"))
  else if l.host = [] then some (sb ("Host: cannot be blank"))
  else if isURL l.host = false then some (sb ("Host: must be a valid URL"))
  else if l.bindDN = [] then some (sb ("BindDN: cannot be blank"))
  else if l.bindDN.length < 2 ∨ 200 < l.bindDN.length then
    some (sb ("BindDN: the length must be between 2 and 200"))
  else if l.bindPassword = [] then some (sb ("BindPassword: cannot be blank"))
  else if l.bindPassword.length < 2 ∨ 200 < l.bindPassword.length then
    some (sb ("BindPassword: the length must be between 2 and 200"))
  else none

/-- The return logic of `MakeConfig` after both validations: on a core
error return it; on an LDAP error the source executes `return nil, err`
-- returning the core error variable, which is nil in that branch --
modelled verbatim. -/
def makeConfigFinish (isURL isB64 : List Nat → Bool) (c : Config) :
    Option Config × Option (List Nat) :=
  let e := validateCore isURL isB64 c
  let eL := validateLdap isURL c.ldap
  match e with
  | some _ => (none, e)
  | none =>
    match eL with
    | some _ => (none, e)
    | none => (some c, none)

/-! ## Tampering and concrete witness data -/

/-- Flip (bitwise-complement) the byte at index `i`; out-of-range
indices leave the list unchanged. -/
def flipAt (l : List Nat) (i : Nat) : List Nat :=
  l.set i (255 - l.getD i 0)

/-- A concrete claims value: what `issuedClaims` builds in `wEnv` at
instant 1000 (lifetime `4h`, so expiry 15400). -/
def wClaims : AuthJWTClaims :=
  ⟨[⟨sb ("ns-dev"), sb ("write")⟩], sb ("alice"), true, ⟨15400, sb ("Kubi Server")⟩⟩

/-- A concrete instantiation of the external collaborators, used to
discharge hypotheses at explicit inputs. -/
def wEnv : Env :=
  ⟨fun _ => [7], fun _ => some wClaims, fun _ _ => [9], [1, 2],
    fun _ => [⟨sb ("ns-dev"), sb ("write")⟩], sb ("4h"),
    fun u p =>
      if u = sb ("alice") ∧ p = sb ("secret") then Except.ok (sb ("cn=alice"))
      else Except.error (sb ("Authentication failed")),
    fun _ => Except.ok [sb ("grp-admin")],
    fun _ => true,
    fun _ => [], sb ("Q0E=")⟩

/-- `wEnv` with a malformed configured lifetime string. -/
def wEnvBogus : Env :=
  ⟨fun _ => [7], fun _ => some wClaims, fun _ _ => [9], [1, 2],
    fun _ => [⟨sb ("ns-dev"), sb ("write")⟩], sb ("bogus"),
    fun u p =>
      if u = sb ("alice") ∧ p = sb ("secret") then Except.ok (sb ("cn=alice"))
      else Except.error (sb ("Authentication failed")),
    fun _ => Except.ok [sb ("grp-admin")],
    fun _ => true,
    fun _ => [], sb ("Q0E=")⟩

/-- The token `wEnv` issues to `alice` at instant 1000. -/
def wToken : List Nat :=
  generateUserToken wEnv 1000 [sb ("grp-admin")] (sb ("alice")) true

/-- A configuration whose core and LDAP sections both validate, but
whose lifetime string is malformed. -/
def badLifeConfig : Config :=
  ⟨⟨sb ("ou=users"), sb ("ou=groups"), sb ("ldap.example"), sb ("cn=admin"), sb ("adminpw")⟩,
    sb ("Q0E="), sb ("tok"), sb ("10.0.0.1:6443"), sb ("bogus")⟩

/-- A configuration whose core section validates but whose LDAP
section does not (blank `UserBase`). -/
def goodCoreBadLdapConfig : Config :=
  ⟨⟨[], sb ("ou=groups"), sb ("ldap.example"), sb ("cn=admin"), sb ("adminpw")⟩,
    sb ("Q0E="), sb ("tok"), sb ("10.0.0.1:6443"), sb ("4h")⟩

/-! ## Alphabet and base64 lemmas -/

theorem tbl_facts : ∀ v < 64, b64val (tbl v) = some v ∧ tbl v < 128 ∧ tbl v ≠ 46 ∧ tbl v ≠ 61 := by
  decide

theorem b64val_big (c : Nat) (h : 128 ≤ c) : b64val c = none := by
  simp only [b64val]
  split_ifs <;> first | rfl | (exfalso; omega)

theorem encB64_mem : ∀ (bs : List Nat), (∀ b ∈ bs, b < 256) →
    ∀ c ∈ encB64 bs, ∃ v, v < 64 ∧ c = tbl v
  | [], _, c, hc => by simp [encB64] at hc
  | [b1], hb, c, hc => by
    have h1 : b1 < 256 := hb b1 (by simp)
    simp only [encB64, List.mem_cons, List.not_mem_nil, or_false] at hc
    rcases hc with rfl | rfl
    · exact ⟨b1 / 4, by omega, rfl⟩
    · exact ⟨b1 % 4 * 16, by omega, rfl⟩
  | [b1, b2], hb, c, hc => by
    have h1 : b1 < 256 := hb b1 (by simp)
    have h2 : b2 < 256 := hb b2 (by simp)
    simp only [encB64, List.mem_cons, List.not_mem_nil, or_false] at hc
    rcases hc with rfl | rfl | rfl
    · exact ⟨b1 / 4, by omega, rfl⟩
    · exact ⟨b1 % 4 * 16 + b2 / 16, by omega, rfl⟩
    · exact ⟨b2 % 16 * 4, by omega, rfl⟩
  | b1 :: b2 :: b3 :: t, hb, c, hc => by
    have h1 : b1 < 256 := hb b1 (by simp)
    have h2 : b2 < 256 := hb b2 (by simp)
    have h3 : b3 < 256 := hb b3 (by simp)
    simp only [encB64, List.mem_cons] at hc
    rcases hc with rfl | rfl | rfl | rfl | hc
    · exact ⟨b1 / 4, by omega, rfl⟩
    · exact ⟨b1 % 4 * 16 + b2 / 16, by omega, rfl⟩
    · exact ⟨b2 % 16 * 4 + b3 / 64, by omega, rfl⟩
    · exact ⟨b3 % 64, by omega, rfl⟩
    · exact encB64_mem t
        (fun b h => hb b (List.mem_cons_of_mem _ (List.mem_cons_of_mem _ (List.mem_cons_of_mem _ h))))
        c hc

theorem encB64_lt128 (bs : List Nat) (hb : ∀ b ∈ bs, b < 256) :
    ∀ c ∈ encB64 bs, c < 128 := by
  intro c hc
  obtain ⟨v, hv, rfl⟩ := encB64_mem bs hb c hc
  exact (tbl_facts v hv).2.1

theorem dot_notMem_encB64 (bs : List Nat) (hb : ∀ b ∈ bs, b < 256) :
    dot ∉ encB64 bs := by
  intro hc
  obtain ⟨v, hv, he⟩ := encB64_mem bs hb dot hc
  exact (tbl_facts v hv).2.2.1 he.symm

theorem decB64_encB64 : ∀ (bs : List Nat), (∀ b ∈ bs, b < 256) →
    decB64 (encB64 bs) = some bs
  | [], _ => rfl
  | [b1], hb => by
    have h1 : b1 < 256 := hb b1 (by simp)
    have e1 := (tbl_facts (b1 / 4) (by omega)).1
    have e2 := (tbl_facts (b1 % 4 * 16) (by omega)).1
    have hshape : decB64 (encB64 [b1]) =
        decQuanta [tbl (b1 / 4), tbl (b1 % 4 * 16), 61, 61] := rfl
    rw [hshape]
    simp only [decQuanta, e1, e2]
    rw [if_pos (by simp)]
    have a1 : b1 / 4 * 4 + b1 % 4 * 16 / 16 = b1 := by omega
    rw [a1]
  | [b1, b2], hb => by
    have h1 : b1 < 256 := hb b1 (by simp)
    have h2 : b2 < 256 := hb b2 (by simp)
    have e1 := (tbl_facts (b1 / 4) (by omega)).1
    have e2 := (tbl_facts (b1 % 4 * 16 + b2 / 16) (by omega)).1
    have e3 := (tbl_facts (b2 % 16 * 4) (by omega)).1
    have n3 := (tbl_facts (b2 % 16 * 4) (by omega)).2.2.2
    have hshape : decB64 (encB64 [b1, b2]) =
        decQuanta [tbl (b1 / 4), tbl (b1 % 4 * 16 + b2 / 16), tbl (b2 % 16 * 4), 61] := rfl
    rw [hshape]
    simp only [decQuanta, e1, e2, e3]
    rw [if_neg (fun h => n3 h.1), if_pos (by simp)]
    have a1 : b1 / 4 * 4 + (b1 % 4 * 16 + b2 / 16) / 16 = b1 := by omega
    have a2 : (b1 % 4 * 16 + b2 / 16) % 16 * 16 + b2 % 16 * 4 / 4 = b2 := by omega
    rw [a1, a2]
  | b1 :: b2 :: b3 :: t, hb => by
    have h1 : b1 < 256 := hb b1 (by simp)
    have h2 : b2 < 256 := hb b2 (by simp)
    have h3 : b3 < 256 := hb b3 (by simp)
    have e1 := (tbl_facts (b1 / 4) (by omega)).1
    have e2 := (tbl_facts (b1 % 4 * 16 + b2 / 16) (by omega)).1
    have e3 := (tbl_facts (b2 % 16 * 4 + b3 / 64) (by omega)).1
    have e4 := (tbl_facts (b3 % 64) (by omega)).1
    have n3 := (tbl_facts (b2 % 16 * 4 + b3 / 64) (by omega)).2.2.2
    have n4 := (tbl_facts (b3 % 64) (by omega)).2.2.2
    have ih := decB64_encB64 t
      (fun b h => hb b (List.mem_cons_of_mem _ (List.mem_cons_of_mem _ (List.mem_cons_of_mem _ h))))
    have henc : encB64 (b1 :: b2 :: b3 :: t) = tbl (b1 / 4) :: tbl (b1 % 4 * 16 + b2 / 16) ::
        tbl (b2 % 16 * 4 + b3 / 64) :: tbl (b3 % 64) :: encB64 t := rfl
    unfold decB64
    rw [henc]
    have hmod : (4 - (tbl (b1 / 4) :: tbl (b1 % 4 * 16 + b2 / 16) ::
        tbl (b2 % 16 * 4 + b3 / 64) :: tbl (b3 % 64) :: encB64 t).length % 4) % 4 =
        (4 - (encB64 t).length % 4) % 4 := by
      simp only [List.length_cons]
      omega
    rw [hmod]
    simp only [List.cons_append]
    simp only [decQuanta, e1, e2, e3, e4]
    rw [if_neg (fun h => n3 h.1), if_neg (fun h => n4 h.1)]
    unfold decB64 at ih
    rw [ih]
    simp only [Option.map]
    have a1 : b1 / 4 * 4 + (b1 % 4 * 16 + b2 / 16) / 16 = b1 := by omega
    have a2 : (b1 % 4 * 16 + b2 / 16) % 16 * 16 + (b2 % 16 * 4 + b3 / 64) / 4 = b2 := by omega
    have a3 : (b2 % 16 * 4 + b3 / 64) % 4 * 64 + b3 % 64 = b3 := by omega
    rw [a1, a2, a3]

theorem decQuanta_big : ∀ (s : List Nat), ∀ x ∈ s, 128 ≤ x → decQuanta s = none
  | [], x, hx, _ => by simp at hx
  | [c1], _, _, _ => rfl
  | [c1, c2], _, _, _ => rfl
  | [c1, c2, c3], _, _, _ => rfl
  | c1 :: c2 :: c3 :: c4 :: rest, x, hx, hbig => by
    have hxval : b64val x = none := b64val_big x hbig
    simp only [List.mem_cons] at hx
    rcases hc1 : b64val c1 with _ | v1
    · simp [decQuanta, hc1]
    rcases hc2 : b64val c2 with _ | v2
    · simp [decQuanta, hc1, hc2]
    have hx1 : x ≠ c1 := by rintro rfl; rw [hc1] at hxval; exact Option.noConfusion hxval
    have hx2 : x ≠ c2 := by rintro rfl; rw [hc2] at hxval; exact Option.noConfusion hxval
    rcases hx with rfl | rfl | hx
    · exact absurd rfl hx1
    · exact absurd rfl hx2
    rcases hx with rfl | rfl | hx
    · -- the bad byte is c3
      simp only [decQuanta, hc1, hc2, hxval]
      rw [if_neg (by rintro ⟨rfl, -, -⟩; omega)]
    · -- the bad byte is c4
      simp only [decQuanta, hc1, hc2]
      rw [if_neg (by rintro ⟨-, rfl, -⟩; omega)]
      rcases hc3 : b64val c3 with _ | v3
      · rfl
      simp only []
      rw [if_neg (by rintro ⟨rfl, -⟩; omega), hxval]
    · -- the bad byte is further on, in rest
      have hrest : rest ≠ [] := by rintro rfl; simp at hx
      simp only [decQuanta, hc1, hc2]
      rw [if_neg (by rintro ⟨-, -, rfl⟩; exact hrest rfl)]
      rcases hc3 : b64val c3 with _ | v3
      · rfl
      simp only []
      rw [if_neg (by rintro ⟨-, rfl⟩; exact hrest rfl)]
      rcases hc4 : b64val c4 with _ | v4
      · rfl
      simp only []
      rw [decQuanta_big rest x hx hbig]
      rfl

theorem decB64_big (s : List Nat) (x : Nat) (hx : x ∈ s) (hbig : 128 ≤ x) :
    decB64 s = none :=
  decQuanta_big _ x (List.mem_append_left _ hx) hbig

/-! ## Split lemmas -/

theorem splitByte_ne_nil (sep : Nat) : ∀ s, splitByte sep s ≠ []
  | [] => by simp [splitByte]
  | c :: cs => by
    simp only [splitByte]
    rcases h : splitByte sep cs with _ | ⟨p, ps⟩
    · simp
    · by_cases hc : c = sep <;> simp [hc]

theorem splitByte_of_notMem (sep : Nat) : ∀ (a : List Nat), sep ∉ a → splitByte sep a = [a]
  | [], _ => rfl
  | c :: cs, h => by
    have hc : c ≠ sep := fun he => h (he ▸ List.mem_cons_self c cs)
    have ih := splitByte_of_notMem sep cs (fun hm => h (List.mem_cons_of_mem c hm))
    simp [splitByte, ih, hc]

theorem splitByte_append (sep : Nat) :
    ∀ (a r : List Nat), sep ∉ a → splitByte sep (a ++ sep :: r) = a :: splitByte sep r
  | [], r, _ => by
    obtain ⟨p, ps, hp⟩ : ∃ p ps, splitByte sep r = p :: ps := by
      rcases h : splitByte sep r with _ | ⟨p, ps⟩
      · exact absurd h (splitByte_ne_nil sep r)
      · exact ⟨p, ps, rfl⟩
    simp [splitByte, hp]
  | c :: cs, r, h => by
    have hc : c ≠ sep := fun he => h (he ▸ List.mem_cons_self c cs)
    have ih := splitByte_append sep cs r (fun hm => h (List.mem_cons_of_mem c hm))
    simp [splitByte, ih, hc]

theorem splitByte_three (sep : Nat) (a b c : List Nat)
    (ha : sep ∉ a) (hb : sep ∉ b) (hc : sep ∉ c) :
    splitByte sep (a ++ sep :: (b ++ sep :: c)) = [a, b, c] := by
  rw [splitByte_append sep a _ ha, splitByte_append sep b c hb,
    splitByte_of_notMem sep c hc]

/-! ## Parsing an issued token -/

theorem headerHS512_bytes : ∀ b ∈ headerHS512, b < 256 := by decide

/-- What jwt-go makes of a token this service just signed: the three
segments decode back, the claims deserialize, the recomputed HMAC
matches, so the outcome is decided entirely by the expiry check. -/
theorem parse_signedString (ser : AuthJWTClaims → List Nat)
    (deser : List Nat → Option AuthJWTClaims) (mac : List Nat → List Nat → List Nat)
    (key : List Nat) (now : Int) (claims : AuthJWTClaims)
    (hser : ∀ b ∈ ser claims, b < 256)
    (hmacB : ∀ b ∈ mac key (signingString (ser claims)), b < 256)
    (hdes : deser (ser claims) = some claims) :
    parseWithClaims deser mac key now (signedString ser mac key claims) =
      if claimsExpired claims now then Except.error ⟨false, true, false⟩
      else Except.ok claims := by
  have hd0 : dot ∉ encodeSegment headerHS512 := dot_notMem_encB64 _ headerHS512_bytes
  have hd1 : dot ∉ encodeSegment (ser claims) := dot_notMem_encB64 _ hser
  have hd2 : dot ∉ encodeSegment (mac key (signingString (ser claims))) :=
    dot_notMem_encB64 _ hmacB
  have hsplit : splitByte dot (signedString ser mac key claims) =
      [encodeSegment headerHS512, encodeSegment (ser claims),
        encodeSegment (mac key (signingString (ser claims)))] := by
    have h3 := splitByte_three dot (encodeSegment headerHS512) (encodeSegment (ser claims))
      (encodeSegment (mac key (signingString (ser claims)))) hd0 hd1 hd2
    rw [show signedString ser mac key claims = encodeSegment headerHS512 ++ dot ::
      (encodeSegment (ser claims) ++ dot ::
        encodeSegment (mac key (signingString (ser claims)))) from by
      simp [signedString, signingString, List.append_assoc]]
    exact h3
  unfold parseWithClaims
  rw [hsplit]
  simp only [encodeSegment] at *
  rw [decB64_encB64 headerHS512 headerHS512_bytes]
  simp only [if_true]
  simp only [decB64_encB64 (ser claims) hser, hdes,
    decB64_encB64 (mac key (signingString (ser claims))) hmacB]
  have hss : signingString (ser claims) = encB64 headerHS512 ++ dot :: encB64 (ser claims) := rfl
  simp only [← hss, decide_eq_true_eq]
  rcases hexp : claimsExpired claims now with _ | _
  · simp
  · simp

/-- Issued claims are not expired at any instant up to their expiry. -/
theorem issued_not_expired (E : Env) (now t : Int) (groups : List (List Nat))
    (username : List Nat) (adm : Bool)
    (ht : t ≤ now + lifetimeSeconds E.tokenLifeTime) :
    claimsExpired (issuedClaims E now groups username adm) t = false := by
  unfold claimsExpired issuedClaims
  simp only []
  split_ifs with h
  · rfl
  · simp only [decide_eq_false_iff_not]
    omega

/-! ## Claims -/

/-- C1.  Round trip: for every valid username, group list and admin
flag, verifying the token produced by issuance succeeds and yields
Claims whose subject equals the username, whose isAdmin equals the
admin flag, and whose authorization grants equal (as lists, hence in
particular as sets) the grants the Authorization Mapper
(`GetUserNamespaces`) returns for that group list.  Hypotheses: the
configured lifetime parses to a non-negative duration, the serialized
claims and the MAC are byte strings, and the JSON codec round-trips
the issued claims value. -/
theorem C1_round_trip (E : Env) (now d : Int) (groups : List (List Nat))
    (username : List Nat) (adm : Bool)
    (hd : parseDurationNs E.tokenLifeTime = some d) (hdnn : 0 ≤ d)
    (hser : ∀ b ∈ E.ser (issuedClaims E now groups username adm), b < 256)
    (hmacB : ∀ b ∈ E.mac E.signingKey
      (signingString (E.ser (issuedClaims E now groups username adm))), b < 256)
    (hdes : E.deser (E.ser (issuedClaims E now groups username adm)) =
      some (issuedClaims E now groups username adm)) :
    ∃ c, parseWithClaims E.deser E.mac E.signingKey now
        (generateUserToken E now groups username adm) = Except.ok c ∧
      c.user = username ∧ c.hasAdminAccess = adm ∧
      c.auths = E.getUserNamespaces groups := by
  refine ⟨issuedClaims E now groups username adm, ?_, rfl, rfl, rfl⟩
  have hk : 0 ≤ lifetimeSeconds E.tokenLifeTime := by
    unfold lifetimeSeconds
    rw [hd]
    exact Int.ediv_nonneg hdnn (by norm_num)
  have hnx := issued_not_expired E now now groups username adm (by omega)
  have hp := parse_signedString E.ser E.deser E.mac E.signingKey now
    (issuedClaims E now groups username adm) hser hmacB hdes
  unfold generateUserToken
  rw [hp, hnx]
  simp

theorem C1_round_trip_witness :
    ∃ c, parseWithClaims wEnv.deser wEnv.mac wEnv.signingKey 1000
        (generateUserToken wEnv 1000 [sb ("grp-admin")] (sb ("alice")) true) = Except.ok c ∧
      c.user = sb ("alice") ∧ c.hasAdminAccess = true ∧
      c.auths = wEnv.getUserNamespaces [sb ("grp-admin")] :=
  C1_round_trip wEnv 1000 14400000000000 [sb ("grp-admin")] (sb ("alice")) true
    (by decide) (by decide) (by decide) (by decide) (by decide)

/-- C3.  Expiry: a token issued at `now` with a lifetime that parses
to `d` nanoseconds carries `expiresAt = now + d / 1e9` seconds;
verification succeeds at any instant strictly before that expiry and
fails with exactly the `TokenExpired` flag (signature valid, not
malformed) at any instant strictly after it.  The expiry must be a
positive Unix timestamp, as it always is in practice (jwt-go treats a
zero `exp` as absent). -/
theorem C3_expiry (E : Env) (now d t1 t2 : Int) (groups : List (List Nat))
    (username : List Nat) (adm : Bool)
    (hd : parseDurationNs E.tokenLifeTime = some d)
    (hpos : 0 < now + d.ediv 1000000000)
    (hser : ∀ b ∈ E.ser (issuedClaims E now groups username adm), b < 256)
    (hmacB : ∀ b ∈ E.mac E.signingKey
      (signingString (E.ser (issuedClaims E now groups username adm))), b < 256)
    (hdes : E.deser (E.ser (issuedClaims E now groups username adm)) =
      some (issuedClaims E now groups username adm))
    (h1 : t1 < now + d.ediv 1000000000) (h2 : now + d.ediv 1000000000 < t2) :
    parseWithClaims E.deser E.mac E.signingKey t1
        (generateUserToken E now groups username adm) =
      Except.ok (issuedClaims E now groups username adm) ∧
    parseWithClaims E.deser E.mac E.signingKey t2
        (generateUserToken E now groups username adm) =
      Except.error ⟨false, true, false⟩ := by
  have hlife : lifetimeSeconds E.tokenLifeTime = d.ediv 1000000000 := by
    unfold lifetimeSeconds
    rw [hd]
    rfl
  constructor
  · have hnx := issued_not_expired E now t1 groups username adm (by omega)
    have hp := parse_signedString E.ser E.deser E.mac E.signingKey t1
      (issuedClaims E now groups username adm) hser hmacB hdes
    unfold generateUserToken
    rw [hp, hnx]
    simp
  · have hx : claimsExpired (issuedClaims E now groups username adm) t2 = true := by
      unfold claimsExpired issuedClaims
      simp only []
      rw [if_neg (by rw [hlife]; omega)]
      simp only [decide_eq_true_eq]
      omega
    have hp := parse_signedString E.ser E.deser E.mac E.signingKey t2
      (issuedClaims E now groups username adm) hser hmacB hdes
    unfold generateUserToken
    rw [hp, hx]
    simp

theorem flipAt_big_mem (l : List Nat) (i : Nat) (hi : i < l.length)
    (hsmall : ∀ c ∈ l, c < 128) : ∃ x ∈ flipAt l i, 128 ≤ x := by
  refine ⟨255 - l.getD i 0, List.mem_set l i (by simpa using hi) _, ?_⟩
  have hgd : l.getD i 0 = l[i] := List.getD_eq_getElem l 0 hi
  have hlt : l[i] < 128 := hsmall _ (List.getElem_mem hi)
  omega

theorem dot_notMem_flipAt (l : List Nat) (i : Nat) (hi : i < l.length)
    (hd : dot ∉ l) (hsmall : ∀ c ∈ l, c < 128) : dot ∉ flipAt l i := by
  intro hmem
  rcases List.mem_or_eq_of_mem_set hmem with h | h
  · exact hd h
  · have hgd : l.getD i 0 = l[i] := List.getD_eq_getElem l 0 hi
    have hlt : l[i] < 128 := hsmall _ (List.getElem_mem hi)
    have : dot = 46 := rfl
    omega

theorem decB64_flipAt (l : List Nat) (i : Nat) (hi : i < l.length)
    (hsmall : ∀ c ∈ l, c < 128) : decB64 (flipAt l i) = none := by
  obtain ⟨x, hx, hbig⟩ := flipAt_big_mem l i hi hsmall
  exact decB64_big _ x hx hbig

/-- C8.  Tamper detection, reading "flipping a byte" as complementing
it: complementing any single byte of an issued token's signature
segment makes verification fail with exactly the InvalidSignature
flag (when checked before expiry), and complementing any single byte
of the payload segment makes verification fail (jwt-go reports it as
malformed, because the altered segment is no longer decodable
base64url text).  Hypotheses: the codec/MAC byte conditions of the
round-trip theorem, a verification instant at or before expiry, and
in-range flip positions. -/
theorem C8_tamper (E : Env) (now t : Int) (groups : List (List Nat))
    (username : List Nat) (adm : Bool) (i j : Nat)
    (hser : ∀ b ∈ E.ser (issuedClaims E now groups username adm), b < 256)
    (hmacB : ∀ b ∈ E.mac E.signingKey
      (signingString (E.ser (issuedClaims E now groups username adm))), b < 256)
    (hdes : E.deser (E.ser (issuedClaims E now groups username adm)) =
      some (issuedClaims E now groups username adm))
    (ht : t ≤ now + lifetimeSeconds E.tokenLifeTime)
    (hi : i < (encodeSegment (E.mac E.signingKey
      (signingString (E.ser (issuedClaims E now groups username adm))))).length)
    (hj : j < (encodeSegment (E.ser (issuedClaims E now groups username adm))).length) :
    parseWithClaims E.deser E.mac E.signingKey t
        (signingString (E.ser (issuedClaims E now groups username adm)) ++ dot ::
          flipAt (encodeSegment (E.mac E.signingKey
            (signingString (E.ser (issuedClaims E now groups username adm))))) i) =
      Except.error ⟨false, false, true⟩ ∧
    parseWithClaims E.deser E.mac E.signingKey t
        (encodeSegment headerHS512 ++ dot ::
          (flipAt (encodeSegment (E.ser (issuedClaims E now groups username adm))) j ++ dot ::
            encodeSegment (E.mac E.signingKey
              (signingString (E.ser (issuedClaims E now groups username adm)))))) =
      Except.error ⟨true, false, false⟩ := by
  have hd0 : dot ∉ encodeSegment headerHS512 := dot_notMem_encB64 _ headerHS512_bytes
  have hd1 : dot ∉ encodeSegment (E.ser (issuedClaims E now groups username adm)) :=
    dot_notMem_encB64 _ hser
  have hd2 : dot ∉ encodeSegment (E.mac E.signingKey
      (signingString (E.ser (issuedClaims E now groups username adm)))) :=
    dot_notMem_encB64 _ hmacB
  have hsmallSig : ∀ c ∈ encodeSegment (E.mac E.signingKey
      (signingString (E.ser (issuedClaims E now groups username adm)))), c < 128 :=
    encB64_lt128 _ hmacB
  have hsmallPay : ∀ c ∈ encodeSegment (E.ser (issuedClaims E now groups username adm)),
      c < 128 := encB64_lt128 _ hser
  have hnx := issued_not_expired E now t groups username adm ht
  constructor
  · -- signature segment flipped
    have hsplit : splitByte dot
        (signingString (E.ser (issuedClaims E now groups username adm)) ++ dot ::
          flipAt (encodeSegment (E.mac E.signingKey
            (signingString (E.ser (issuedClaims E now groups username adm))))) i) =
        [encodeSegment headerHS512,
          encodeSegment (E.ser (issuedClaims E now groups username adm)),
          flipAt (encodeSegment (E.mac E.signingKey
            (signingString (E.ser (issuedClaims E now groups username adm))))) i] := by
      have h3 := splitByte_three dot (encodeSegment headerHS512)
        (encodeSegment (E.ser (issuedClaims E now groups username adm)))
        (flipAt (encodeSegment (E.mac E.signingKey
          (signingString (E.ser (issuedClaims E now groups username adm))))) i)
        hd0 hd1 (dot_notMem_flipAt _ i hi hd2 hsmallSig)
      rw [show signingString (E.ser (issuedClaims E now groups username adm)) ++ dot ::
        flipAt (encodeSegment (E.mac E.signingKey
          (signingString (E.ser (issuedClaims E now groups username adm))))) i =
        encodeSegment headerHS512 ++ dot ::
          (encodeSegment (E.ser (issuedClaims E now groups username adm)) ++ dot ::
            flipAt (encodeSegment (E.mac E.signingKey
              (signingString (E.ser (issuedClaims E now groups username adm))))) i) from by
        simp [signingString, List.append_assoc]]
      exact h3
    unfold parseWithClaims
    rw [hsplit]
    simp only [encodeSegment] at *
    rw [decB64_encB64 headerHS512 headerHS512_bytes]
    simp only [if_true]
    simp only [decB64_encB64 _ hser, hdes,
      decB64_flipAt _ i (by simpa using hi) hsmallSig, hnx]
    simp
  · -- payload segment flipped
    have hsplit : splitByte dot
        (encodeSegment headerHS512 ++ dot ::
          (flipAt (encodeSegment (E.ser (issuedClaims E now groups username adm))) j ++ dot ::
            encodeSegment (E.mac E.signingKey
              (signingString (E.ser (issuedClaims E now groups username adm)))))) =
        [encodeSegment headerHS512,
          flipAt (encodeSegment (E.ser (issuedClaims E now groups username adm))) j,
          encodeSegment (E.mac E.signingKey
            (signingString (E.ser (issuedClaims E now groups username adm))))] :=
      splitByte_three dot _ _ _ hd0 (dot_notMem_flipAt _ j hj hd1 hsmallPay) hd2
    unfold parseWithClaims
    rw [hsplit]
    simp only [encodeSegment] at *
    rw [decB64_encB64 headerHS512 headerHS512_bytes]
    simp only [if_true]
    rw [decB64_flipAt _ j (by simpa using hj) hsmallPay]

theorem C8_tamper_witness :
    parseWithClaims wEnv.deser wEnv.mac wEnv.signingKey 1000
        (signingString (wEnv.ser (issuedClaims wEnv 1000 [sb ("grp-admin")] (sb ("alice")) true)) ++ dot ::
          flipAt (encodeSegment (wEnv.mac wEnv.signingKey
            (signingString (wEnv.ser (issuedClaims wEnv 1000 [sb ("grp-admin")] (sb ("alice")) true))))) 0) =
      Except.error ⟨false, false, true⟩ ∧
    parseWithClaims wEnv.deser wEnv.mac wEnv.signingKey 1000
        (encodeSegment headerHS512 ++ dot ::
          (flipAt (encodeSegment (wEnv.ser (issuedClaims wEnv 1000 [sb ("grp-admin")] (sb ("alice")) true))) 0 ++ dot ::
            encodeSegment (wEnv.mac wEnv.signingKey
              (signingString (wEnv.ser (issuedClaims wEnv 1000 [sb ("grp-admin")] (sb ("alice")) true)))))) =
      Except.error ⟨true, false, false⟩ :=
  C8_tamper wEnv 1000 1000 [sb ("grp-admin")] (sb ("alice")) true 0 0
    (by decide) (by decide) (by decide) (by decide) (by decide) (by decide)

theorem C3_expiry_witness :
    parseWithClaims wEnv.deser wEnv.mac wEnv.signingKey 15399
        (generateUserToken wEnv 1000 [sb ("grp-admin")] (sb ("alice")) true) =
      Except.ok (issuedClaims wEnv 1000 [sb ("grp-admin")] (sb ("alice")) true) ∧
    parseWithClaims wEnv.deser wEnv.mac wEnv.signingKey 15401
        (generateUserToken wEnv 1000 [sb ("grp-admin")] (sb ("alice")) true) =
      Except.error ⟨false, true, false⟩ :=
  C3_expiry wEnv 1000 14400000000000 15399 15401 [sb ("grp-admin")] (sb ("alice")) true
    (by decide) (by decide) (by decide) (by decide) (by decide) (by decide) (by decide)

/-! ## Bearer extraction (C7) -/

theorem startsWith_append : ∀ (p r : List Nat), startsWith p (p ++ r) = true
  | [], _ => rfl
  | c :: cs, r => by simp [startsWith, startsWith_append cs r]

theorem findSub_self (pat rest : List Nat) (hp : pat ≠ []) :
    findSub pat (pat ++ rest) = some 0 := by
  cases pat with
  | nil => exact absurd rfl hp
  | cons p ps =>
    show findSub (p :: ps) (p :: (ps ++ rest)) = some 0
    simp only [findSub]
    rw [if_pos ?_]
    show startsWith (p :: ps) ((p :: ps) ++ rest) = true
    exact startsWith_append (p :: ps) rest

/-- C7 counterexample: for the header `Bearer aBearer b`, whose
remainder after the `Bearer ` prefix is `aBearer b`, extraction
succeeds but delegates the token `a`, not the entire remainder -- the
source takes element 1 of `strings.Split(header, "Bearer ")`, which
cuts the remainder at its own first occurrence of `Bearer `. -/
theorem C7_counterexample :
    sb ("Bearer aBearer b") = bearerPfx ++ sb ("aBearer b") ∧
    extractBearer (sb ("Bearer aBearer b")) = GoResult.ok (sb ("a")) ∧
    sb ("a") ≠ sb ("aBearer b") := by
  refine ⟨by decide, by decide, by decide⟩

/-- C7 amended.  The Bearer Extractor succeeds exactly when the value
has the exact prefix `Bearer ` and a non-empty remainder (total length
at least 8); every other input yields the MissingOrMalformedBearer
error.  The delegated token is the remainder truncated at the first
occurrence of `Bearer ` inside it -- the entire remainder whenever the
remainder does not itself contain `Bearer `. -/
theorem C7_bearer (h rest : List Nat) :
    ((startsWith bearerPfx h = false ∨ h.length < 8) →
      extractBearer h = GoResult.err (sb ("Invalid Authorization Header"))) ∧
    (rest ≠ [] → extractBearer (bearerPfx ++ rest) =
      GoResult.ok (match findSub bearerPfx rest with
        | none => rest
        | some i => rest.take i)) := by
  constructor
  · intro hcond
    unfold extractBearer
    rw [if_pos hcond]
  · intro hne
    have hrl : 0 < rest.length := List.length_pos.mpr hne
    have hpfx : startsWith bearerPfx (bearerPfx ++ rest) = true := startsWith_append _ _
    have h7 : bearerPfx.length = 7 := by decide
    have hlen : (bearerPfx ++ rest).length = 7 + rest.length := by
      rw [List.length_append, h7]
    unfold extractBearer
    rw [if_neg (by rw [hpfx, hlen]; simp; omega)]
    unfold splitSeq
    rw [hlen]
    simp only [splitSeqGo, findSub_self bearerPfx rest (by decide)]
    have hdrop : (bearerPfx ++ rest).drop (0 + bearerPfx.length) = rest := by
      rw [Nat.zero_add]
      exact List.drop_left bearerPfx rest
    rw [hdrop]
    rcases hf : findSub bearerPfx rest with _ | i
    · rw [show (7 : Nat) + rest.length = (6 + rest.length) + 1 from by omega]
      simp only [splitSeqGo, hf]
    · rw [show (7 : Nat) + rest.length = (6 + rest.length) + 1 from by omega]
      simp only [splitSeqGo, hf]

theorem C7_bearer_witness :
    extractBearer (sb ("Token abc")) = GoResult.err (sb ("Invalid Authorization Header")) ∧
    extractBearer (bearerPfx ++ sb ("abc")) = GoResult.ok (sb ("abc")) := by
  constructor
  · exact (C7_bearer (sb ("Token abc")) []).1 (by decide)
  · have h := (C7_bearer [] (sb ("abc"))).2 (by decide)
    rw [show findSub bearerPfx (sb ("abc")) = none from by decide] at h
    simpa using h

/-! ## Credential extraction (C2, C4) -/

/-- C2 fails on the code: `basicAuth` feeds the Authorization header
`Basic QUFBQQ==` -- an arbitrary but perfectly well-formed byte string
-- through base64 decoding to the payload `AAAA`, which holds no
colon, so `strings.SplitN` yields one element and the unconditional
`pair[1]` is an out-of-range index: a runtime panic, not a typed
error. -/
theorem C2_basicAuth_panics :
    basicAuth (sb ("Basic QUFBQQ==")) = GoResult.panics (sb ("index out of range")) := by
  decide

/-- C4 fails on the code: for the header `Basic dXNlcjpwYXNz!` the
base64 text is not decodable (Go's decoder reports a corrupt-input
error), yet `basicAuth` discards the error (`payload, _ :=`), keeps
the partially decoded payload `user:pass`, and succeeds -- instead of
returning the single InvalidCredentialsFormat error the contract
requires. -/
theorem C4_basicAuth_corrupt_base64 :
    (decStdGo (sb ("dXNlcjpwYXNz!"))).snd = false ∧
    basicAuth (sb ("Basic dXNlcjpwYXNz!")) =
      GoResult.ok ⟨sb ("user"), sb ("pass")⟩ := by
  decide

/-! ## Lifetime handling (C5) -/

/-- C5 counterexample: the malformed lifetime string `bogus` does not
parse; it is not startup-fatal -- a configuration carrying it passes
both `MakeConfig` validations and is returned successfully -- and it
does alter per-request behaviour: the issued claims expire at the
issuance instant itself (1000) instead of `issuedAt + L` (15400 under
the well-formed `4h`). -/
theorem C5_counterexample :
    parseDurationNs (sb ("bogus")) = none ∧
    (issuedClaims wEnvBogus 1000 [] (sb ("alice")) false).standardClaims.expiresAt = 1000 ∧
    (issuedClaims wEnv 1000 [] (sb ("alice")) false).standardClaims.expiresAt = 15400 ∧
    makeConfigFinish (fun _ => true) (fun _ => true) badLifeConfig =
      (some badLifeConfig, none) := by
  decide

/-- C5 amended.  The lifetime string is parsed on every issuance call,
not once at startup, and the parse error is silently discarded: a
malformed lifetime yields the zero duration, so the issued claims
expire at the issuance instant (altered per-request behaviour, though
no per-request error).  `MakeConfig` validation never inspects the
lifetime string, so a malformed lifetime is not a startup-fatal
configuration error. -/
theorem C5_lifetime_per_request (E : Env) (now : Int) (groups : List (List Nat))
    (u : List Nat) (adm : Bool) (c : Config) (lt : List Nat)
    (hbad : parseDurationNs E.tokenLifeTime = none) :
    (issuedClaims E now groups u adm).standardClaims.expiresAt = now ∧
    (∀ isURL isB64, validateCore isURL isB64 c =
      validateCore isURL isB64 ⟨c.ldap, c.kubeCa, c.kubeToken, c.apiServerURL, lt⟩) := by
  constructor
  · show now + lifetimeSeconds E.tokenLifeTime = now
    unfold lifetimeSeconds
    rw [hbad]
    simp
    decide
  · intro isURL isB64
    rfl

theorem C5_lifetime_per_request_witness :
    (issuedClaims wEnvBogus 1000 [] (sb ("alice")) false).standardClaims.expiresAt = 1000 ∧
    (∀ isURL isB64, validateCore isURL isB64 badLifeConfig =
      validateCore isURL isB64 ⟨badLifeConfig.ldap, badLifeConfig.kubeCa,
        badLifeConfig.kubeToken, badLifeConfig.apiServerURL, sb ("8h")⟩) :=
  C5_lifetime_per_request wEnvBogus 1000 [] (sb ("alice")) false badLifeConfig (sb ("8h"))
    (by decide)

/-! ## Raw-token endpoint (C6) -/

/-- C6 fails on the code.  When credential extraction fails (header
`bad`), `GenerateJWT` does write 401 and the fixed message, but the
missing `return` lets control fall through to
`baseGenerateToken(*auth)` with a nil `auth`: a nil-pointer
dereference -- the request is very much processed further.  When
extraction succeeds but directory authentication fails (header
`Basic YWxpY2U6d3Jvbmc=`, i.e. `alice:wrong`), the handler writes
nothing at all -- no 401 status and no message. -/
theorem C6_generateJWT_failure_paths :
    generateJWT wEnv 0 (sb ("bad")) =
      (⟨some 401, [], [], sb ("Basic Auth: Invalid credentials")⟩,
        some (sb ("invalid memory address or nil pointer dereference"))) ∧
    generateJWT wEnv 0 (sb ("Basic YWxpY2U6d3Jvbmc=")) = (⟨none, [], [], []⟩, none) := by
  decide

/-! ## Access-config endpoint (C9) -/

/-- C9 fails on the code in exactly one conjunct.  For a successful
issuance (credentials `alice:secret`, host `host:6443`), the rendered
document does have apiVersion `v1`, kind `Config`, one cluster entry
named `kubernetes`, current context and context name
`kubernetes-alice`, and one user entry named `alice` holding the
issued token, and the status is 201 -- but `Content-Type` is set only
after `WriteHeader(201)`, so the sent headers do not carry
`text/x-yaml`; the value sits only in the never-transmitted pending
header map. -/
theorem C9_generateConfig :
    (generateConfig wEnv 1000 (sb ("host:6443")) (sb ("Basic YWxpY2U6c2VjcmV0"))).2 = none ∧
    (generateConfig wEnv 1000 (sb ("host:6443")) (sb ("Basic YWxpY2U6c2VjcmV0"))).1.status =
      some 201 ∧
    (generateConfig wEnv 1000 (sb ("host:6443")) (sb ("Basic YWxpY2U6c2VjcmV0"))).1.sentHeaders =
      [] ∧
    (generateConfig wEnv 1000 (sb ("host:6443")) (sb ("Basic YWxpY2U6c2VjcmV0"))).1.pendingHeaders =
      [(sb ("Content-Type"), sb ("text/x-yaml; charset=utf-8"))] ∧
    generateConfigDoc wEnv (sb ("host:6443")) (sb ("alice")) wToken =
      ⟨sb ("v1"), sb ("Config"),
        [⟨sb ("kubernetes"), ⟨sb ("https://host:6443"), sb ("Q0E=")⟩⟩],
        sb ("kubernetes-alice"),
        [⟨sb ("kubernetes-alice"), ⟨sb ("kubernetes"), sb ("alice")⟩⟩],
        [⟨⟨wToken⟩, sb ("alice")⟩]⟩ := by
  decide

/-! ## MakeConfig error propagation (C10) -/

/-- C10.  When the core configuration validates but the LDAP section
does not, `MakeConfig` executes `return nil, err` -- returning the
core error variable, which is nil in that branch -- so the caller
receives a nil configuration pointer together with a nil error. -/
theorem C10_makeConfig_nil_nil (isURL isB64 : List Nat → Bool) (c : Config) (e : List Nat)
    (hcore : validateCore isURL isB64 c = none)
    (hldap : validateLdap isURL c.ldap = some e) :
    makeConfigFinish isURL isB64 c = (none, none) := by
  unfold makeConfigFinish
  rw [hcore, hldap]

theorem C10_makeConfig_nil_nil_witness :
    makeConfigFinish (fun _ => true) (fun _ => true) goodCoreBadLdapConfig = (none, none) :=
  C10_makeConfig_nil_nil (fun _ => true) (fun _ => true) goodCoreBadLdapConfig
    (sb ("UserBase: cannot be blank")) (by decide) (by decide)

end Kubi
